import Mathlib

/-!
Verification of the statement-decomposition utilities of `alembic_utils`
(`statement.py` and `pg_materialized_view.py`).

Python strings are modelled as `List Char` (ASCII: the SQL texts these
functions handle).  Each Python string primitive used by the source is given
a structurally recursive Lean model so that concrete runs are kernel-decidable:

* `replaceList old new s`  models  `s.replace(old, new)`  (leftmost,
  non-overlapping, for a non-empty `old` — all call sites pass non-empty
  patterns);
* `splitOnL sep s`         models  `s.split(sep)`         (non-empty `sep`);
* `lstripP / rstripP / stripP` model `str.lstrip / rstrip / strip` with a
  character-set predicate;
* `pySplitWs`              models  `s.split()` (split on whitespace runs,
  no empty parts);
* `pyLower`                models  `s.lower()` for the ASCII texts at hand.
-/

/-- Characters treated as whitespace by `str.strip()` / `str.split()`
(the ASCII whitespace set). -/
def isPySpace (c : Char) : Bool :=
  c = ' ' || c = '\t' || c = '\n' || c = '\r' || c = '\x0b' || c = '\x0c'

/-- The character list of a string literal. -/
def chars (s : String) : List Char := s.data

/-- Model of `str.lstrip` with a character predicate. -/
def lstripP (p : Char → Bool) (s : List Char) : List Char :=
  s.dropWhile p

/-- Model of `str.rstrip` with a character predicate. -/
def rstripP (p : Char → Bool) : List Char → List Char
  | [] => []
  | c :: rest =>
    match rstripP p rest with
    | [] => if p c then [] else [c]
    | r :: rs => c :: r :: rs

/-- Model of `str.strip` with a character predicate. -/
def stripP (p : Char → Bool) (s : List Char) : List Char :=
  rstripP p (lstripP p s)

/-- Model of `s.strip()` — strip ASCII whitespace from both ends. -/
def pyStrip (s : List Char) : List Char := stripP isPySpace s

/-- Model of `s.lower()` (ASCII). -/
def pyLower (s : List Char) : List Char := s.map Char.toLower

/-- Worker for `replaceList`.  `skip = k+1` means `k+1` characters of a
match found earlier remain to be consumed; at `skip = 0` the scanner looks
for the leftmost occurrence of `old` at the current position. -/
def replAux (old new : List Char) : Nat → List Char → List Char
  | _, [] => []
  | k+1, _ :: rest => replAux old new k rest
  | 0, c :: rest =>
    if !old.isEmpty && old.isPrefixOf (c :: rest) then
      new ++ replAux old new (old.length - 1) rest
    else
      c :: replAux old new 0 rest

/-- Model of Python `s.replace(old, new)` for non-empty `old`:
replace the leftmost, non-overlapping occurrences of `old` by `new`. -/
def replaceList (old new s : List Char) : List Char :=
  replAux old new 0 s

/-- Worker for `splitOnL`; `acc` is the current part, reversed. -/
def splitGo (sep : List Char) : Nat → List Char → List Char → List (List Char)
  | _, acc, [] => [acc.reverse]
  | k+1, acc, _ :: rest => splitGo sep k acc rest
  | 0, acc, c :: rest =>
    if !sep.isEmpty && sep.isPrefixOf (c :: rest) then
      acc.reverse :: splitGo sep (sep.length - 1) [] rest
    else
      splitGo sep 0 (c :: acc) rest

/-- Model of Python `s.split(sep)` for non-empty `sep`. -/
def splitOnL (sep s : List Char) : List (List Char) :=
  splitGo sep 0 [] s

/-- Number of leftmost non-overlapping occurrences of `pat`
(the occurrences that `replaceList` / `splitOnL` act on). -/
def countOccAux (pat : List Char) : Nat → List Char → Nat
  | _, [] => 0
  | k+1, _ :: rest => countOccAux pat k rest
  | 0, c :: rest =>
    if !pat.isEmpty && pat.isPrefixOf (c :: rest) then
      countOccAux pat (pat.length - 1) rest + 1
    else
      countOccAux pat 0 rest

/-- Occurrence count of `pat` in `s` (leftmost non-overlapping scan). -/
def countOcc (pat s : List Char) : Nat := countOccAux pat 0 s

/-- Whether `pat` occurs (as a contiguous sublist) anywhere in `s`. -/
def occursB (pat : List Char) : List Char → Bool
  | [] => pat.isEmpty
  | c :: rest => pat.isPrefixOf (c :: rest) || occursB pat rest

/-- Join a list of parts with a separator (`sep.join(parts)`). -/
def joinList (sep : List Char) : List (List Char) → List Char
  | [] => []
  | [p] => p
  | p :: q :: ps => p ++ sep ++ joinList sep (q :: ps)

/-- Worker for `pySplitWs`; `acc` is the current word, reversed. -/
def splitWsGo (acc : List Char) : List Char → List (List Char)
  | [] => if acc.isEmpty then [] else [acc.reverse]
  | c :: rest =>
    if isPySpace c then
      if acc.isEmpty then splitWsGo [] rest
      else acc.reverse :: splitWsGo [] rest
    else splitWsGo (c :: acc) rest

/-- Model of Python `s.split()` — split on whitespace runs, dropping
empty parts. -/
def pySplitWs (s : List Char) : List (List Char) := splitWsGo [] s

/-!
Models of the functions of `alembic_utils/statement.py` (normalization
utilities).  Each definition mirrors the Python source line by line.
-/

/-- Model of `normalize_whitespace(text, base_whitespace=" ")`:
`base_whitespace.join(text.split()).strip()`. -/
def normalize_whitespace (text : List Char) (base : List Char := [' ']) : List Char :=
  pyStrip (joinList base (pySplitWs text))

/-- Model of `strip_terminating_semicolon(sql)`: `sql.strip().rstrip(";").strip()`. -/
def strip_terminating_semicolon (sql : List Char) : List Char :=
  pyStrip (rstripP (fun c => c = ';') (pyStrip sql))

/-- Model of `strip_double_quotes(sql)`:
`sql = sql.strip().rstrip('"'); return sql.strip().lstrip('"').strip()`. -/
def strip_double_quotes (sql : List Char) : List Char :=
  let s := rstripP (fun c => c = '"') (pyStrip sql)
  pyStrip (lstripP (fun c => c = '"') (pyStrip s))

/-- Model of `text.partition(sep)` for a single-character separator: the part before
the first occurrence of `sep` and the part after it (with `sep` removed).
`coerce_to_quoted` only uses the two outer components of the triple. -/
def partitionChar (sep : Char) : List Char → (List Char × List Char)
  | [] => ([], [])
  | c :: rest =>
    if c = sep then ([], rest)
    else
      let (pre, post) := partitionChar sep rest
      (c :: pre, post)

/-- Model of `coerce_to_quoted(text)`: wrap each dot-component in double quotes after
stripping any existing ones. -/
def coerce_to_quoted (text : List Char) : List Char :=
  if text.contains '.' then
    let (schema, name) := partitionChar '.' text
    ('"' :: strip_double_quotes schema ++ ['"']) ++ ['.'] ++
      ('"' :: strip_double_quotes name ++ ['"'])
  else
    '"' :: strip_double_quotes text ++ ['"']

/-- Model of `coerce_to_unquoted(text)`: `"".join(text.split('"'))`. -/
def coerce_to_unquoted (text : List Char) : List Char :=
  joinList [] (splitOnL ['"'] text)

/-- Model of `escape_colon_for_sql(sql)`.  The source draws `holder = str(uuid4())`,
a random sentinel assumed (by collision resistance) not to occur in the
input; the sentinel is an explicit parameter here. -/
def escape_colon_for_sql (holder : List Char) (sql : List Char) : List Char :=
  replaceList holder [':', ':']
    (replaceList [':'] ['\\', ':']
      (replaceList [':', ':'] holder sql))

/-- Model of `escape_colon_for_plpgsql(sql)`.  The three random `uuid4()` sentinels
of the source are explicit parameters `h1 h2 h3`. -/
def escape_colon_for_plpgsql (h1 h2 h3 : List Char) (sql : List Char) : List Char :=
  replaceList h1 [':', ':']
    (replaceList h2 [':', '=']
      (replaceList h3 ['\\', ':']
        (replaceList [':'] ['\\', ':']
          (replaceList ['\\', ':'] h3
            (replaceList [':', '='] h2
              (replaceList [':', ':'] h1 sql))))))

/-!
Model of `PGMaterializedView` (`pg_materialized_view.py`).  The process-wide
environment flag `NEVER_INCLUDE_SCHEMA` is an explicit parameter
(`neverIncludeSchema`); `RENDER_DEF_MULTILINE` only affects migration-file
rendering, which no claim touches.
-/

structure PGMaterializedView where
  schema : List Char
  signature : List Char
  definition : List Char
  with_data : Bool
  include_schema_prefix : Bool
  deriving DecidableEq

/-- Model of `PGMaterializedView.__init__`: normalize and unquote `schema` and
`signature`, strip the terminating semicolon of `definition`, and derive
`include_schema_prefix` from the (possibly overridden) raw `schema`
argument — the comparison in the source reads the local variable `schema`,
not the normalized `self.schema`. -/
def PGMaterializedView.init (neverIncludeSchema : Bool)
    (signature definition : List Char) (schema : List Char := chars "public")
    (with_data : Bool := true) : PGMaterializedView :=
  let schema' := if neverIncludeSchema then chars "public" else schema
  { schema := coerce_to_unquoted (normalize_whitespace schema')
    signature := coerce_to_unquoted (normalize_whitespace signature)
    definition := strip_terminating_semicolon definition
    with_data := with_data
    include_schema_prefix := schema' != chars "public" }

/-!
Claims C8 and C10 (colon escaping).  The random `uuid4()` sentinels are
modelled as arbitrary fresh sentinel characters: the two theorems below show
that under the freshness the randomness provides, each holder pipeline
computes the same function as a direct one-pass scan, which makes the
escaping behaviour explicit.
-/

/-- One-pass scan equivalent of `escape_colon_for_sql`: keep `::`, escape a
lone `:`. -/
def sqlScan : List Char → List Char
  | [] => []
  | [c] => if c = ':' then ['\\', ':'] else [c]
  | c :: d :: rest =>
    if c = ':' then
      if d = ':' then ':' :: ':' :: sqlScan rest
      else '\\' :: ':' :: sqlScan (d :: rest)
    else c :: sqlScan (d :: rest)

/-- One-pass scan equivalent of `escape_colon_for_plpgsql`: keep `::` and
`:=` (the `::` pass of the pipeline runs first, so it also wins after a
backslash), keep an existing `\:`, escape any remaining lone `:`. -/
def plpgsqlScan : List Char → List Char
  | [] => []
  | [c] =>
    if c = ':' then ['\\', ':'] else [c]
  | c :: d :: rest =>
    if c = ':' then
      if d = ':' then ':' :: ':' :: plpgsqlScan rest
      else if d = '=' then ':' :: '=' :: plpgsqlScan rest
      else '\\' :: ':' :: plpgsqlScan (d :: rest)
    else if c = '\\' then
      if d = ':' then
        match rest with
        | [] => ['\\', ':']
        | e :: rest2 =>
          if e = ':' then '\\' :: ':' :: ':' :: plpgsqlScan rest2
          else if e = '=' then '\\' :: ':' :: '=' :: plpgsqlScan rest2
          else '\\' :: ':' :: plpgsqlScan (e :: rest2)
      else '\\' :: plpgsqlScan (d :: rest)
    else c :: plpgsqlScan (d :: rest)

/-- Every colon in the string is part of a `::` or is preceded by a
backslash: no bare lone colon remains. -/
def sqlColonsOk : List Char → Bool
  | [] => true
  | ':' :: ':' :: rest => sqlColonsOk rest
  | '\\' :: ':' :: rest => sqlColonsOk rest
  | ':' :: _ => false
  | _ :: rest => sqlColonsOk rest

/-- Every colon in the string is part of a `::` or a `:=` or is preceded by
a backslash: no bare lone colon remains, and casts/assignments are intact. -/
def plpgsqlColonsOk : List Char → Bool
  | [] => true
  | ':' :: ':' :: rest => plpgsqlColonsOk rest
  | ':' :: '=' :: rest => plpgsqlColonsOk rest
  | '\\' :: ':' :: rest => plpgsqlColonsOk rest
  | ':' :: _ => false
  | _ :: rest => plpgsqlColonsOk rest

/-!
Claim C1: the text-carving step of `_get_func_body`.  The grammar codec
(`query_to_pb` / `pb_to_query`) is an external collaborator; the claim is
about what the source does with the serialized spliced statement
(statement.py lines 114-120), modelled here on an arbitrary serialized
string.
-/

/-- Modelled from the spec: the error taxonomy of §7.  The module
`alembic_utils/exceptions.py`, which defines `SQLParseFailure`, is not among
the sources; per the spec, the codec's errors (`PgQueryExc`), Python's
builtin `ValueError` (structural mismatch), and `SQLParseFailure` are
distinct error kinds. -/
inductive PyError where
  | valueError (msg : List Char)
  | sqlParseFailure (msg : List Char)
  | pgQueryExc (msg : List Char)
  deriving DecidableEq

/-- Model of `_get_func_body`, lines 114-120: split the serialized spliced statement
on the literal `"RETURNS void"`, fail unless the split has exactly two
parts (exactly one occurrence), fail unless the stripped, lowercased prefix
is the dummy header `"create function foo.bar()"`, and return the text
after the sentinel verbatim. -/
def getFuncBodySplit (func_str : List Char) : Except PyError (List Char) :=
  match splitOnL (chars "RETURNS void") func_str with
  | [pre, body] =>
    if pyLower (pyStrip pre) = chars "create function foo.bar()" then
      Except.ok body
    else
      Except.error (.valueError (chars "Expected CREATE FUNCTION foo.bar() got " ++ pre))
  | _ =>
    Except.error (.valueError
      (chars "Expected 1 instance of RETURNS void in statement: " ++ func_str))

/-!
Claims C4, C5, C9: `PGMaterializedView.from_sql`.  The third-party `parse`
library is an external collaborator; its template matching is modelled by a
backtracking matcher with the library's semantics: templates are anchored
at both ends and matched case-insensitively, `{}` and `{name}` compile to
the lazy wildcard `(.+?)` (at least one character, shortest match first,
any character), and `{:s}` compiles to greedy `\s+` (one or more
whitespace characters).  Only named wildcards produce captures.
-/

/-- One token of a compiled `parse` template. -/
inductive Tok where
  | lit (l : List Char)
  | ws
  | anyU
  | anyN (name : List Char)
  deriving DecidableEq

/-- Named captures of a successful template match. -/
abbrev Bindings := List (List Char × List Char)

/-- Consume a literal, case-insensitively; return the remainder. -/
def dropLitCI : List Char → List Char → Option (List Char)
  | [], s => some s
  | _ :: _, [] => none
  | x :: xs, c :: cs => if x.toLower = c.toLower then dropLitCI xs cs else none

/-- Match `\s+` greedily (longest first), then continue with `k`. -/
def wsMatch (k : List Char → Option Bindings) : List Char → Option Bindings
  | [] => none
  | c :: rest =>
    if isPySpace c then
      match wsMatch k rest with
      | some bs => some bs
      | none => k rest
    else none

/-- Match the lazy wildcard `(.+?)` (shortest first, at least one
character), then continue with `k`; `acc` is the text consumed so far. -/
def anyMatch (name : Option (List Char)) (k : List Char → Option Bindings)
    (acc : List Char) : List Char → Option Bindings
  | [] => none
  | c :: rest =>
    match k rest with
    | some bs =>
      some (match name with
        | some n => (n, acc ++ [c]) :: bs
        | none => bs)
    | none => anyMatch name k (acc ++ [c]) rest

/-- Anchored match of a template against a string (backtracking, with the
lazy/greedy behaviour of the `parse` library's compiled regex). -/
def tmatch : List Tok → List Char → Option Bindings
  | [], s => if s.isEmpty then some [] else none
  | .lit l :: ts, s =>
    match dropLitCI l s with
    | some rest => tmatch ts rest
    | none => none
  | .ws :: ts, s => wsMatch (tmatch ts) s
  | .anyU :: ts, s => anyMatch none (tmatch ts) [] s
  | .anyN n :: ts, s => anyMatch (some n) (tmatch ts) [] s
/- "create{}materialized{}view{:s}{schema}.{signature}{:s}as{:s}{definition}{:s}with{:s}data" -/

def viewTemplate1 : List Tok :=
  [.lit (chars "create"), .anyU, .lit (chars "materialized"), .anyU, .lit (chars "view"),
   .ws, .anyN (chars "schema"), .lit (chars "."), .anyN (chars "signature"),
   .ws, .lit (chars "as"), .ws, .anyN (chars "definition"),
   .ws, .lit (chars "with"), .ws, .lit (chars "data")]
/- "create{}materialized{}view{:s}{schema}.{signature}{:s}as{:s}{definition}{}with{:s}{no_data}{:s}data" -/

def viewTemplate2 : List Tok :=
  [.lit (chars "create"), .anyU, .lit (chars "materialized"), .anyU, .lit (chars "view"),
   .ws, .anyN (chars "schema"), .lit (chars "."), .anyN (chars "signature"),
   .ws, .lit (chars "as"), .ws, .anyN (chars "definition"),
   .anyU, .lit (chars "with"), .ws, .anyN (chars "no_data"), .ws, .lit (chars "data")]
/- "create{}materialized{}view{:s}{schema}.{signature}{:s}as{:s}{definition}" -/

def viewTemplate3 : List Tok :=
  [.lit (chars "create"), .anyU, .lit (chars "materialized"), .anyU, .lit (chars "view"),
   .ws, .anyN (chars "schema"), .lit (chars "."), .anyN (chars "signature"),
   .ws, .lit (chars "as"), .ws, .anyN (chars "definition")]
/- "create{}materialized{}view{:s}{signature}{:s}as{:s}{definition}{:s}with{:s}data" -/

def viewTemplate4 : List Tok :=
  [.lit (chars "create"), .anyU, .lit (chars "materialized"), .anyU, .lit (chars "view"),
   .ws, .anyN (chars "signature"), .ws, .lit (chars "as"), .ws, .anyN (chars "definition"),
   .ws, .lit (chars "with"), .ws, .lit (chars "data")]
/- "create{}materialized{}view{:s}{signature}{:s}as{:s}{definition}{}with{:s}{no_data}{:s}data" -/

def viewTemplate5 : List Tok :=
  [.lit (chars "create"), .anyU, .lit (chars "materialized"), .anyU, .lit (chars "view"),
   .ws, .anyN (chars "signature"), .ws, .lit (chars "as"), .ws, .anyN (chars "definition"),
   .anyU, .lit (chars "with"), .ws, .anyN (chars "no_data"), .ws, .lit (chars "data")]
/- "create{}materialized{}view{:s}{signature}{:s}as{:s}{definition}" -/

def viewTemplate6 : List Tok :=
  [.lit (chars "create"), .anyU, .lit (chars "materialized"), .anyU, .lit (chars "view"),
   .ws, .anyN (chars "signature"), .ws, .lit (chars "as"), .ws, .anyN (chars "definition")]

/-- The templates of `PGMaterializedView.from_sql`, in source order. -/
def viewTemplates : List (List Tok) :=
  [viewTemplate1, viewTemplate2, viewTemplate3, viewTemplate4, viewTemplate5, viewTemplate6]

/-- Try the templates in order; the first successful match wins. -/
def tryTemplates : List (List Tok) → List Char → Option Bindings
  | [], _ => none
  | t :: ts, s =>
    match tmatch t s with
    | some r => some r
    | none => tryTemplates ts s

/-- First named capture with the given name. -/
def lookupBinding (bs : Bindings) (n : List Char) : Option (List Char) :=
  match bs with
  | [] => none
  | (k, v) :: rest => if k = n then some v else lookupBinding rest n

/-- Model of `PGMaterializedView.from_sql`: strip the terminating semicolon, try the
templates in order, then post-process: drop an inline column list from the
signature, strip double quotes from it, default the schema to `public`
(forced to `public` under the never-include-schema flag), and set
`with_data` iff the `no_data` capture is absent.  If no template matches,
fail with a `SQLParseFailure` carrying the offending text. -/
def PGMaterializedView.from_sql (neverIncludeSchema : Bool) (sql : List Char) :
    Except PyError PGMaterializedView :=
  let sql := strip_terminating_semicolon sql
  match tryTemplates viewTemplates sql with
  | some r =>
    let with_data := !(lookupBinding r (chars "no_data")).isSome
    let signature :=
      match splitOnL ['('] ((lookupBinding r (chars "signature")).getD []) with
      | [] => []
      | part :: _ => part
    let schema := (lookupBinding r (chars "schema")).getD (chars "public")
    let schema := if neverIncludeSchema then chars "public" else schema
    Except.ok (PGMaterializedView.init neverIncludeSchema
      (replaceList ['"'] [] signature)
      ((lookupBinding r (chars "definition")).getD [])
      schema with_data)
  | none =>
    Except.error (.sqlParseFailure
      (chars "Failed to parse SQL into PGView \"\"\"" ++ sql ++ chars "\"\"\""))

instance decEqExcept {e a : Type} [DecidableEq e] [DecidableEq a] :
    DecidableEq (Except e a) := fun x y =>
  match x, y with
  | .ok v, .ok w =>
    if h : v = w then .isTrue (by rw [h]) else .isFalse (fun q => h (Except.ok.inj q))
  | .error v, .error w =>
    if h : v = w then .isTrue (by rw [h]) else .isFalse (fun q => h (Except.error.inj q))
  | .ok _, .error _ => .isFalse (fun q => Except.noConfusion q)
  | .error _, .ok _ => .isFalse (fun q => Except.noConfusion q)

/-!
Claim C2: the statement-count/kind check of `split_function`.  The parse
tree comes from the external grammar codec; the checks and the exception
handling are in the source (`_get_create_function_stmt`,
`split_function`'s `except pg_query.PgQueryExc` clause).
-/

/-- Minimal model of the protobuf `CreateFunctionStmt` node. -/
structure CreateFunctionStmt where
  is_procedure : Bool := false
  replace : Bool := false
  deriving DecidableEq

/-- Kind of one top-level statement node, corresponding to the protobuf
`HasField` checks of the source. -/
inductive StmtNode where
  | create_function_stmt (f : CreateFunctionStmt)
  | create_procedure_stmt (f : CreateFunctionStmt)
  | drop_stmt
  | other
  deriving DecidableEq

/-- Model of the `RawStmt` wrapper (`stmt.stmt` in the source). -/
structure RawStmt where
  stmt : StmtNode
  deriving DecidableEq

/-- The protobuf `ParseResult`: the list of top-level statements. -/
structure ParseResult where
  stmts : List RawStmt
  deriving DecidableEq

/-- Model of `_get_create_function_stmt`: require exactly one top-level statement
whose kind is create-function or create-procedure; raise `ValueError`
otherwise. -/
def get_create_function_stmt (pt : ParseResult) : Except PyError CreateFunctionStmt :=
  match pt.stmts with
  | [stmt] =>
    match stmt.stmt with
    | .create_function_stmt f => Except.ok f
    | .create_procedure_stmt f => Except.ok f
    | _ =>
      Except.error (.valueError
        (chars "Expected create_function_stmt or create_procedure_stmt"))
  | _ => Except.error (.valueError (chars "Expected 1 statement"))

/-- The `try/except` of `split_function`: only the codec's `PgQueryExc` is
caught and re-raised as `SQLParseFailure`; any other error — in particular
the structural `ValueError` — propagates unchanged. -/
def catchPgQueryExc {a : Type} (r : Except PyError a) : Except PyError a :=
  match r with
  | .error (.pgQueryExc m) => Except.error (.sqlParseFailure m)
  | x => x

/-- Model of `split_function`, abstracted over the external codec and the steps that
follow the statement-kind check: `codecResult` is the outcome of
`query_to_pb(sql)` and `rest` the remainder of the splitting pipeline; the
whole body runs inside the `except pg_query.PgQueryExc` handler. -/
def split_function_model {a : Type} (codecResult : Except PyError ParseResult)
    (rest : CreateFunctionStmt → Except PyError a) : Except PyError a :=
  catchPgQueryExc (codecResult.bind (fun pt => (get_create_function_stmt pt).bind rest))

/-- A parse tree with two top-level statements. -/
def twoStmtTree : ParseResult := { stmts := [{ stmt := .other }, { stmt := .other }] }

/-! Lemmas about the strip primitives, used for claim C6. -/

theorem lstripP_idem (p : Char → Bool) (s : List Char) :
    lstripP p (lstripP p s) = lstripP p s := by
  unfold lstripP
  induction s with
  | nil => rfl
  | cons a t ih =>
    by_cases h : p a = true
    · simp [List.dropWhile_cons, h, ih]
    · simp [List.dropWhile_cons, h]

theorem rstripP_nil (p : Char → Bool) : rstripP p [] = [] := rfl

theorem rstripP_cons (p : Char → Bool) (c : Char) (t : List Char) :
    rstripP p (c :: t) =
      match rstripP p t with
      | [] => if p c = true then [] else [c]
      | r :: rs => c :: r :: rs := rfl

theorem lstripP_cons_pos (p : Char → Bool) (c : Char) (t : List Char)
    (hc : p c = true) : lstripP p (c :: t) = lstripP p t := by
  simp [lstripP, List.dropWhile_cons, hc]

theorem lstripP_cons_neg (p : Char → Bool) (c : Char) (t : List Char)
    (hc : ¬ p c = true) : lstripP p (c :: t) = c :: t := by
  simp [lstripP, List.dropWhile_cons, hc]

theorem rstripP_idem (p : Char → Bool) (s : List Char) :
    rstripP p (rstripP p s) = rstripP p s := by
  induction s with
  | nil => rfl
  | cons c t ih =>
    rw [rstripP_cons]
    cases h : rstripP p t with
    | nil =>
      by_cases hc : p c = true
      · simp [hc, rstripP_nil]
      · rw [if_neg hc]
        rw [rstripP_cons]
        simp [hc, rstripP_nil]
    | cons r rs =>
      rw [h] at ih
      show rstripP p (c :: r :: rs) = c :: r :: rs
      rw [rstripP_cons, ih]

theorem lstripP_rstripP_comm (p : Char → Bool) (s : List Char) :
    lstripP p (rstripP p s) = rstripP p (lstripP p s) := by
  induction s with
  | nil => rfl
  | cons c t ih =>
    by_cases hc : p c = true
    · rw [rstripP_cons, lstripP_cons_pos p c t hc]
      cases h : rstripP p t with
      | nil =>
        simp only [hc, if_true]
        rw [← ih, h]
      | cons r rs =>
        show lstripP p (c :: r :: rs) = rstripP p (lstripP p t)
        rw [lstripP_cons_pos p c _ hc, ← ih, h]
    · rw [rstripP_cons, lstripP_cons_neg p c t hc]
      cases h : rstripP p t with
      | nil =>
        rw [if_neg hc, lstripP_cons_neg p c [] hc, rstripP_cons, h]
        simp [hc]
      | cons r rs =>
        show lstripP p (c :: r :: rs) = rstripP p (c :: t)
        rw [lstripP_cons_neg p c _ hc, rstripP_cons, h]

theorem stripP_idem (p : Char → Bool) (s : List Char) :
    stripP p (stripP p s) = stripP p s := by
  unfold stripP
  rw [lstripP_rstripP_comm, lstripP_idem, rstripP_idem]

theorem rstripP_eq_self (p : Char → Bool) (s : List Char)
    (h : ∀ a, s.getLast? = some a → p a = false) : rstripP p s = s := by
  induction s with
  | nil => rfl
  | cons c t ih =>
    cases t with
    | nil =>
      have hc := h c rfl
      rw [rstripP_cons]
      simp [hc, rstripP_nil]
    | cons d u =>
      have ht : rstripP p (d :: u) = d :: u := by
        apply ih
        intro a ha
        exact h a (by rw [List.getLast?_cons_cons]; exact ha)
      rw [rstripP_cons, ht]

/-- C6 counterexample: `strip_terminating_semicolon` is not idempotent.
On `"a; ;"` one application yields `"a;"` (the trailing whitespace hid a
further semicolon), and a second application yields `"a"`. -/
theorem strip_terminating_semicolon_not_idempotent :
    strip_terminating_semicolon (strip_terminating_semicolon (chars "a; ;")) ≠
      strip_terminating_semicolon (chars "a; ;") := by decide

/-- C6 (amended): `strip_terminating_semicolon` trims surrounding whitespace
and removes ALL trailing semicolons (not at most one); it is idempotent on
every input whose once-stripped form does not end in a semicolon (stripping
trailing whitespace can expose a semicolon that was not trailing before, in
which case a second application strips further). -/
theorem strip_terminating_semicolon_idem_of_no_trailing_semicolon (s : List Char)
    (h : (strip_terminating_semicolon s).getLast? ≠ some ';') :
    strip_terminating_semicolon (strip_terminating_semicolon s) =
      strip_terminating_semicolon s := by
  have h2 : rstripP (fun c => c = ';') (strip_terminating_semicolon s) =
      strip_terminating_semicolon s := by
    apply rstripP_eq_self
    intro a ha
    have hne : a ≠ ';' := by
      intro e
      subst e
      exact h ha
    exact decide_eq_false hne
  have h1 : pyStrip (strip_terminating_semicolon s) = strip_terminating_semicolon s :=
    stripP_idem isPySpace (rstripP (fun c => c = ';') (pyStrip s))
  show pyStrip (rstripP (fun c => c = ';') (pyStrip (strip_terminating_semicolon s))) =
    strip_terminating_semicolon s
  rw [h1, h2, h1]

/-- Witness for the amended C6 theorem at the concrete input `"select 1;"`. -/
theorem strip_terminating_semicolon_idem_witness :
    (strip_terminating_semicolon (chars "select 1;")).getLast? ≠ some ';' ∧
      strip_terminating_semicolon (strip_terminating_semicolon (chars "select 1;")) =
        strip_terminating_semicolon (chars "select 1;") :=
  ⟨by decide, strip_terminating_semicolon_idem_of_no_trailing_semicolon (chars "select 1;") (by decide)⟩

/-! Characterizations used for claims C7 and C3. -/

theorem lstripP_eq_self_of_all (p : Char → Bool) (s : List Char)
    (h : ∀ c ∈ s, p c = false) : lstripP p s = s := by
  cases s with
  | nil => rfl
  | cons c t =>
    have hc : ¬ p c = true := by simp [h c (List.mem_cons_self c t)]
    exact lstripP_cons_neg p c t hc

theorem rstripP_eq_self_of_all (p : Char → Bool) (s : List Char)
    (h : ∀ c ∈ s, p c = false) : rstripP p s = s := by
  induction s with
  | nil => rfl
  | cons c t ih =>
    have ht : rstripP p t = t := ih (fun a ha => h a (List.mem_cons_of_mem c ha))
    rw [rstripP_cons, ht]
    cases t with
    | nil => simp [h c (List.mem_cons_self c [])]
    | cons d u => rfl

theorem stripP_eq_self_of_all (p : Char → Bool) (s : List Char)
    (h : ∀ c ∈ s, p c = false) : stripP p s = s := by
  unfold stripP
  rw [lstripP_eq_self_of_all p s h, rstripP_eq_self_of_all p s h]

theorem contains_eq_false_of_not_mem (s : List Char) (a : Char)
    (h : ∀ c ∈ s, c ≠ a) : s.contains a = false := by
  induction s with
  | nil => rfl
  | cons c t ih =>
    cases hbeq : a == c with
    | true =>
      have he : a = c := by simpa using hbeq
      exact absurd he.symm (h c (List.mem_cons_self c t))
    | false =>
      simp only [List.contains, List.elem, hbeq]
      exact ih (fun b hb => h b (List.mem_cons_of_mem c hb))

theorem splitGo_ne_nil (sep : List Char) (k : Nat) (acc s : List Char) :
    splitGo sep k acc s ≠ [] := by
  induction s generalizing k acc with
  | nil => cases k <;> simp [splitGo]
  | cons c t ih =>
    cases k with
    | zero =>
      show splitGo sep 0 acc (c :: t) ≠ []
      rw [splitGo]
      by_cases hp : (!sep.isEmpty && sep.isPrefixOf (c :: t)) = true
      · rw [if_pos hp]; simp
      · rw [if_neg hp]; exact ih 0 (c :: acc)
    | succ k =>
      show splitGo sep (k+1) acc (c :: t) ≠ []
      rw [splitGo]
      exact ih k acc

theorem joinList_cons_of_ne_nil (sep : List Char) (p : List Char)
    (L : List (List Char)) (h : L ≠ []) :
    joinList sep (p :: L) = p ++ sep ++ joinList sep L := by
  cases L with
  | nil => exact absurd rfl h
  | cons q ps => rfl

theorem join_splitGo_singleChar (c : Char) (s : List Char) :
    ∀ acc : List Char,
      joinList [] (splitGo [c] 0 acc s) =
        acc.reverse ++ s.filter (fun x => !(x == c)) := by
  induction s with
  | nil => intro acc; simp [splitGo, joinList]
  | cons x rest ih =>
    intro acc
    rw [splitGo]
    by_cases hx : (x == c) = true
    · have hp : (!(List.isEmpty [c]) && List.isPrefixOf [c] (x :: rest)) = true := by
        simp [List.isPrefixOf, List.isEmpty]
        simp only [beq_iff_eq] at hx
        exact hx.symm
      rw [if_pos hp]
      show joinList [] (acc.reverse :: splitGo [c] 0 [] rest) =
        acc.reverse ++ List.filter (fun y => !(y == c)) (x :: rest)
      rw [joinList_cons_of_ne_nil [] acc.reverse _ (splitGo_ne_nil [c] 0 [] rest)]
      have := ih []
      simp only [List.reverse_nil, List.nil_append] at this
      show acc.reverse ++ [] ++ joinList [] (splitGo [c] 0 [] rest) = _
      rw [List.append_nil, this, List.filter_cons]
      simp [hx]
    · have hp : ¬ (!(List.isEmpty [c]) && List.isPrefixOf [c] (x :: rest)) = true := by
        simp [List.isPrefixOf, List.isEmpty]
        simp only [beq_iff_eq] at hx
        exact fun e => hx e.symm
      rw [if_neg hp, ih (x :: acc), List.filter_cons]
      simp only [hx]
      simp

/-- The function `coerce_to_unquoted` removes exactly the double-quote characters. -/
theorem coerce_to_unquoted_eq_filter (t : List Char) :
    coerce_to_unquoted t = t.filter (fun x => !(x == '"')) := by
  have := join_splitGo_singleChar '"' t []
  simpa [coerce_to_unquoted, splitOnL] using this

theorem not_mem_coerce_to_unquoted (t : List Char) :
    ∀ c ∈ coerce_to_unquoted t, c ≠ '"' := by
  rw [coerce_to_unquoted_eq_filter]
  intro c hc
  have := List.of_mem_filter hc
  simpa using this

theorem pyStrip_eq_self_of_all (s : List Char)
    (h : ∀ c ∈ s, isPySpace c = false) : pyStrip s = s :=
  stripP_eq_self_of_all isPySpace s h

/-- C7: for an identifier (no embedded dots, no double quotes — and, being
an identifier, no whitespace characters), `coerce_to_unquoted` undoes
`coerce_to_quoted`. -/
theorem coerce_to_unquoted_coerce_to_quoted (x : List Char)
    (hdot : ∀ c ∈ x, c ≠ '.')
    (hq : ∀ c ∈ x, c ≠ '"')
    (hws : ∀ c ∈ x, isPySpace c = false) :
    coerce_to_unquoted (coerce_to_quoted x) = x := by
  have hqb : ∀ c ∈ x, (decide (c = '"')) = false := fun c hc => decide_eq_false (hq c hc)
  have hsdq : strip_double_quotes x = x := by
    show pyStrip (lstripP (fun c => c = '"')
      (pyStrip (rstripP (fun c => c = '"') (pyStrip x)))) = x
    rw [pyStrip_eq_self_of_all x hws, rstripP_eq_self_of_all _ x hqb,
      pyStrip_eq_self_of_all x hws, lstripP_eq_self_of_all _ x hqb,
      pyStrip_eq_self_of_all x hws]
  have hcontains : x.contains '.' = false :=
    contains_eq_false_of_not_mem x '.' hdot
  have hnd : ¬ (x.contains '.' = true) := by
    simp only [hcontains]
    exact Bool.false_ne_true
  have hquoted : coerce_to_quoted x = '"' :: x ++ ['"'] := by
    unfold coerce_to_quoted
    rw [if_neg hnd, hsdq]
  rw [hquoted, coerce_to_unquoted_eq_filter]
  show List.filter (fun y => !(y == '"')) (('"' :: x) ++ ['"']) = x
  rw [List.filter_append, List.filter_cons]
  simp only [beq_self_eq_true, Bool.not_true, if_false]
  rw [List.filter_eq_self.mpr (fun c hc => by simpa using hq c hc)]
  simp

/-- Witness for C7 at the concrete identifier `"myschema"`. -/
theorem coerce_to_unquoted_coerce_to_quoted_witness :
    ((∀ c ∈ chars "myschema", c ≠ '.') ∧ (∀ c ∈ chars "myschema", c ≠ '"') ∧
      (∀ c ∈ chars "myschema", isPySpace c = false)) ∧
      coerce_to_unquoted (coerce_to_quoted (chars "myschema")) = chars "myschema" :=
  ⟨⟨by decide, by decide, by decide⟩,
    coerce_to_unquoted_coerce_to_quoted (chars "myschema")
      (by decide) (by decide) (by decide)⟩

/-- C3 counterexample: constructing with the quoted schema argument
`'"public"'` stores the normalized schema `"public"` but sets
`include_schema_prefix` to `true`, so `include_schema_prefix` is NOT
`stored schema != "public"`. -/
theorem pgmv_include_schema_prefix_counterexample :
    (PGMaterializedView.init false (chars "mv") (chars "SELECT 1")
        (chars "\"public\"") true).schema = chars "public" ∧
      PGMaterializedView.include_schema_prefix (PGMaterializedView.init false
        (chars "mv") (chars "SELECT 1") (chars "\"public\"") true) = true ∧
      ¬ (PGMaterializedView.include_schema_prefix (PGMaterializedView.init false
            (chars "mv") (chars "SELECT 1") (chars "\"public\"") true) = true ↔
          (PGMaterializedView.init false (chars "mv") (chars "SELECT 1")
            (chars "\"public\"") true).schema ≠ chars "public") := by
  refine ⟨by decide, by decide, ?_⟩
  intro h
  exact absurd ((h.mp (by decide))) (by decide)

/-- C3 (amended): the stored `schema` and `signature` are unquoted (every
double quote is removed from the whitespace-normalized argument), but
`include_schema_prefix` is computed from the RAW constructor argument
(after the never-include-schema override), not from the stored, normalized
schema; for a quoted argument such as `'"public"'` the two disagree. -/
theorem pgmv_init_invariants (n : Bool) (sig defn sch : List Char) (wd : Bool) :
    (∀ c ∈ (PGMaterializedView.init n sig defn sch wd).schema, c ≠ '"') ∧
      (∀ c ∈ (PGMaterializedView.init n sig defn sch wd).signature, c ≠ '"') ∧
      PGMaterializedView.include_schema_prefix (PGMaterializedView.init n sig defn sch wd)
        = ((if n then chars "public" else sch) != chars "public") :=
  ⟨not_mem_coerce_to_unquoted _, not_mem_coerce_to_unquoted _, rfl⟩

/-- Unfolding equation of `plpgsqlScan` on a two-or-more-element list. -/
theorem plpgsqlScan_cons_cons (c d : Char) (rest : List Char) :
    plpgsqlScan (c :: d :: rest) =
      if c = ':' then
        if d = ':' then ':' :: ':' :: plpgsqlScan rest
        else if d = '=' then ':' :: '=' :: plpgsqlScan rest
        else '\\' :: ':' :: plpgsqlScan (d :: rest)
      else if c = '\\' then
        if d = ':' then
          match rest with
          | [] => ['\\', ':']
          | e :: rest2 =>
            if e = ':' then '\\' :: ':' :: ':' :: plpgsqlScan rest2
            else if e = '=' then '\\' :: ':' :: '=' :: plpgsqlScan rest2
            else '\\' :: ':' :: plpgsqlScan (e :: rest2)
        else '\\' :: plpgsqlScan (d :: rest)
      else c :: plpgsqlScan (d :: rest) := by
  rw [plpgsqlScan.eq_def]

/-- The `escape_colon_for_sql` pipeline with a fresh sentinel character `u`
equals the one-pass scan. -/
theorem escape_colon_for_sql_eq_scan (u : Char)
    (hcolon : u ≠ ':') (hslash : u ≠ '\\') :
    ∀ s, u ∉ s → escape_colon_for_sql [u] s = sqlScan s := by
  have hc1 : (':' == u) = false := by simpa using fun e => hcolon e.symm
  have hc2 : (u == ':') = false := by simpa using hcolon
  have hb1 : (u == '\\') = false := by simpa using hslash
  intro s
  induction s using sqlScan.induct with
  | case1 => intro _; rfl
  | case2 =>
    intro _
    simp [escape_colon_for_sql, replaceList, replAux, List.isPrefixOf, sqlScan, hc1, hc2, hb1]
  | case3 c hne =>
    intro hmem
    have hd1 : (':' == c) = false := by simpa using fun e => hne e.symm
    have hud : (u == c) = false := by
      simpa using fun e => hmem (by rw [e]; exact List.mem_cons_self _ _)
    simp [escape_colon_for_sql, replaceList, replAux, List.isPrefixOf, sqlScan, hc1, hc2, hb1,
      hd1, hud, hne]
  | case4 rest ih =>
    intro hmem
    have hmem' : u ∉ rest := fun h => hmem (by simp [h])
    have ih' := ih hmem'
    simp only [escape_colon_for_sql, replaceList] at ih' ⊢
    simp only [replAux, List.isPrefixOf, List.isEmpty, Bool.not_false, Bool.true_and,
      beq_self_eq_true, Bool.and_true, Bool.and_false, hc1, hc2, hb1, if_true, if_false,
      Bool.and_self, List.length_cons, List.length_nil, List.length_singleton] at ih' ⊢
    simp [sqlScan, ih']
  | case5 d rest hne ih =>
    intro hmem
    have hmem' : u ∉ d :: rest := fun h => hmem (by simp [h])
    have ih' := ih hmem'
    have hd1 : (':' == d) = false := by simpa using fun e => hne e.symm
    have hud : (u == d) = false := by
      simpa using fun e => hmem (by rw [e]; simp)
    simp [escape_colon_for_sql, replaceList, replAux, List.isPrefixOf, hc1, hc2, hb1, hd1, hud,
      hne, sqlScan] at ih' ⊢
    rw [ih']
  | case6 c d rest hne ih =>
    intro hmem
    have hmem' : u ∉ d :: rest := fun h => hmem (by simp [h])
    have ih' := ih hmem'
    have hd1 : (':' == c) = false := by simpa using fun e => hne e.symm
    have huc : (u == c) = false := by
      simpa using fun e => hmem (by rw [e]; simp)
    simp [escape_colon_for_sql, replaceList, replAux, List.isPrefixOf, hc1, hc2, hb1, hd1, huc,
      hne, sqlScan] at ih' ⊢
    rw [ih']

/-- The `escape_colon_for_plpgsql` pipeline with three distinct fresh
sentinel characters equals the one-pass scan. -/
theorem escape_colon_for_plpgsql_eq_scan (u1 u2 u3 : Char)
    (h1c : u1 ≠ ':') (h1e : u1 ≠ '=') (h1b : u1 ≠ '\\')
    (h2c : u2 ≠ ':') (h2e : u2 ≠ '=') (h2b : u2 ≠ '\\')
    (h3c : u3 ≠ ':') (h3e : u3 ≠ '=') (h3b : u3 ≠ '\\')
    (h21 : u2 ≠ u1) (h31 : u3 ≠ u1) (h32 : u3 ≠ u2) :
    ∀ s, u1 ∉ s → u2 ∉ s → u3 ∉ s →
      escape_colon_for_plpgsql [u1] [u2] [u3] s = plpgsqlScan s := by
  have fc1 : (':' == u1) = false := by simpa using fun e => h1c e.symm
  have fc2 : (':' == u2) = false := by simpa using fun e => h2c e.symm
  have fc3 : (':' == u3) = false := by simpa using fun e => h3c e.symm
  have fb1 : ('\\' == u1) = false := by simpa using fun e => h1b e.symm
  have fb2 : ('\\' == u2) = false := by simpa using fun e => h2b e.symm
  have fb3 : ('\\' == u3) = false := by simpa using fun e => h3b e.symm
  have fe1 : ('=' == u1) = false := by simpa using fun e => h1e e.symm
  have fe2 : ('=' == u2) = false := by simpa using fun e => h2e e.symm
  have fe3 : ('=' == u3) = false := by simpa using fun e => h3e e.symm
  have ec1 : (u1 == ':') = false := by simpa using h1c
  have ec2 : (u2 == ':') = false := by simpa using h2c
  have ec3 : (u3 == ':') = false := by simpa using h3c
  have eb1 : (u1 == '\\') = false := by simpa using h1b
  have eb2 : (u2 == '\\') = false := by simpa using h2b
  have eb3 : (u3 == '\\') = false := by simpa using h3b
  have ee1 : (u1 == '=') = false := by simpa using h1e
  have ee2 : (u2 == '=') = false := by simpa using h2e
  have ee3 : (u3 == '=') = false := by simpa using h3e
  have p21 : (u2 == u1) = false := by simpa using h21
  have p31 : (u3 == u1) = false := by simpa using h31
  have p32 : (u3 == u2) = false := by simpa using h32
  intro s
  induction s using plpgsqlScan.induct with
  | case1 => intro _ _ _; rfl
  | case2 =>
    intro _ _ _
    simp [escape_colon_for_plpgsql, replaceList, replAux, List.isPrefixOf, plpgsqlScan,
      fc1, fc2, fc3, fb1, fb2, fb3, fe1, fe2, fe3, ec1, ec2, ec3, eb1, eb2, eb3,
      ee1, ee2, ee3, p21, p31, p32]
  | case3 c hne =>
    intro hm1 hm2 hm3
    have d1 : (':' == c) = false := by simpa using fun e => hne e.symm
    have q1 : (u1 == c) = false := by simpa using fun e => hm1 (by rw [e]; simp)
    have q2 : (u2 == c) = false := by simpa using fun e => hm2 (by rw [e]; simp)
    have q3 : (u3 == c) = false := by simpa using fun e => hm3 (by rw [e]; simp)
    simp [escape_colon_for_plpgsql, replaceList, replAux, List.isPrefixOf, plpgsqlScan,
      fc1, fc2, fc3, fb1, fb2, fb3, fe1, fe2, fe3, ec1, ec2, ec3, eb1, eb2, eb3,
      ee1, ee2, ee3, p21, p31, p32, d1, q1, q2, q3, hne]
  | case4 rest ih =>
    intro hm1 hm2 hm3
    have ih' := ih (fun h => hm1 (by simp [h])) (fun h => hm2 (by simp [h]))
      (fun h => hm3 (by simp [h]))
    simp [escape_colon_for_plpgsql, replaceList, replAux, List.isPrefixOf, plpgsqlScan,
      fc1, fc2, fc3, fb1, fb2, fb3, fe1, fe2, fe3, ec1, ec2, ec3, eb1, eb2, eb3,
      ee1, ee2, ee3, p21, p31, p32] at ih' ⊢
    rw [ih']
    rw [plpgsqlScan_cons_cons]
    simp_all
  | case5 rest hne ih =>
    intro hm1 hm2 hm3
    have ih' := ih (fun h => hm1 (by simp [h])) (fun h => hm2 (by simp [h]))
      (fun h => hm3 (by simp [h]))
    simp [escape_colon_for_plpgsql, replaceList, replAux, List.isPrefixOf, plpgsqlScan,
      fc1, fc2, fc3, fb1, fb2, fb3, fe1, fe2, fe3, ec1, ec2, ec3, eb1, eb2, eb3,
      ee1, ee2, ee3, p21, p31, p32] at ih' ⊢
    rw [ih']
    rw [plpgsqlScan_cons_cons]
    simp_all
  | case6 d rest hne1 hne2 ih =>
    intro hm1 hm2 hm3
    have ih' := ih (fun h => hm1 (by simp [h])) (fun h => hm2 (by simp [h]))
      (fun h => hm3 (by simp [h]))
    have d1 : (':' == d) = false := by simpa using fun e => hne1 e.symm
    have d2 : ('=' == d) = false := by simpa using fun e => hne2 e.symm
    have q1 : (u1 == d) = false := by simpa using fun e => hm1 (by rw [e]; simp)
    have q2 : (u2 == d) = false := by simpa using fun e => hm2 (by rw [e]; simp)
    have q3 : (u3 == d) = false := by simpa using fun e => hm3 (by rw [e]; simp)
    simp [escape_colon_for_plpgsql, replaceList, replAux, List.isPrefixOf, plpgsqlScan,
      fc1, fc2, fc3, fb1, fb2, fb3, fe1, fe2, fe3, ec1, ec2, ec3, eb1, eb2, eb3,
      ee1, ee2, ee3, p21, p31, p32, d1, d2, q1, q2, q3, hne1, hne2] at ih' ⊢
    rw [ih']
    rw [plpgsqlScan_cons_cons]
    simp_all
  | case7 =>
    intro _ _ _
    rw [plpgsqlScan_cons_cons]
    simp [escape_colon_for_plpgsql, replaceList, replAux, List.isPrefixOf,
      fc1, fc2, fc3, fb1, fb2, fb3, fe1, fe2, fe3, ec1, ec2, ec3, eb1, eb2, eb3,
      ee1, ee2, ee3, p21, p31, p32]
  | case8 rest2 hne ih =>
    intro hm1 hm2 hm3
    have ih' := ih (fun h => hm1 (by simp [h])) (fun h => hm2 (by simp [h]))
      (fun h => hm3 (by simp [h]))
    simp [escape_colon_for_plpgsql, replaceList, replAux, List.isPrefixOf, plpgsqlScan,
      fc1, fc2, fc3, fb1, fb2, fb3, fe1, fe2, fe3, ec1, ec2, ec3, eb1, eb2, eb3,
      ee1, ee2, ee3, p21, p31, p32] at ih' ⊢
    rw [ih']
  | case9 rest2 hne1 hne2 ih =>
    intro hm1 hm2 hm3
    have ih' := ih (fun h => hm1 (by simp [h])) (fun h => hm2 (by simp [h]))
      (fun h => hm3 (by simp [h]))
    simp [escape_colon_for_plpgsql, replaceList, replAux, List.isPrefixOf, plpgsqlScan,
      fc1, fc2, fc3, fb1, fb2, fb3, fe1, fe2, fe3, ec1, ec2, ec3, eb1, eb2, eb3,
      ee1, ee2, ee3, p21, p31, p32] at ih' ⊢
    rw [ih']
  | case10 e rest2 hne1 hne2 hne3 ih =>
    intro hm1 hm2 hm3
    have ih' := ih (fun h => hm1 (by simp [h])) (fun h => hm2 (by simp [h]))
      (fun h => hm3 (by simp [h]))
    have d1 : (':' == e) = false := by simpa using fun h => hne1 h.symm
    have d2 : ('=' == e) = false := by simpa using fun h => hne2 h.symm
    have q1 : (u1 == e) = false := by simpa using fun h => hm1 (by rw [h]; simp)
    have q2 : (u2 == e) = false := by simpa using fun h => hm2 (by rw [h]; simp)
    have q3 : (u3 == e) = false := by simpa using fun h => hm3 (by rw [h]; simp)
    simp [escape_colon_for_plpgsql, replaceList, replAux, List.isPrefixOf, plpgsqlScan,
      fc1, fc2, fc3, fb1, fb2, fb3, fe1, fe2, fe3, ec1, ec2, ec3, eb1, eb2, eb3,
      ee1, ee2, ee3, p21, p31, p32, d1, d2, q1, q2, q3, hne1, hne2] at ih' ⊢
    rw [ih']
  | case11 d rest hne1 hne2 ih =>
    intro hm1 hm2 hm3
    have ih' := ih (fun h => hm1 (by simp [h])) (fun h => hm2 (by simp [h]))
      (fun h => hm3 (by simp [h]))
    have d1 : (':' == d) = false := by simpa using fun h => hne1 h.symm
    have q1 : (u1 == d) = false := by simpa using fun h => hm1 (by rw [h]; simp)
    have q2 : (u2 == d) = false := by simpa using fun h => hm2 (by rw [h]; simp)
    have q3 : (u3 == d) = false := by simpa using fun h => hm3 (by rw [h]; simp)
    simp [escape_colon_for_plpgsql, replaceList, replAux, List.isPrefixOf, plpgsqlScan,
      fc1, fc2, fc3, fb1, fb2, fb3, fe1, fe2, fe3, ec1, ec2, ec3, eb1, eb2, eb3,
      ee1, ee2, ee3, p21, p31, p32, d1, q1, q2, q3, hne1] at ih' ⊢
    rw [ih']
    rw [plpgsqlScan_cons_cons]
    simp_all
  | case12 c d rest hne1 hne2 ih =>
    intro hm1 hm2 hm3
    have ih' := ih (fun h => hm1 (by simp [h])) (fun h => hm2 (by simp [h]))
      (fun h => hm3 (by simp [h]))
    have d1 : (':' == c) = false := by simpa using fun h => hne1 h.symm
    have d2 : ('\\' == c) = false := by simpa using fun h => hne2 h.symm
    have q1 : (u1 == c) = false := by simpa using fun h => hm1 (by rw [h]; simp)
    have q2 : (u2 == c) = false := by simpa using fun h => hm2 (by rw [h]; simp)
    have q3 : (u3 == c) = false := by simpa using fun h => hm3 (by rw [h]; simp)
    simp [escape_colon_for_plpgsql, replaceList, replAux, List.isPrefixOf, plpgsqlScan,
      fc1, fc2, fc3, fb1, fb2, fb3, fe1, fe2, fe3, ec1, ec2, ec3, eb1, eb2, eb3,
      ee1, ee2, ee3, p21, p31, p32, d1, d2, q1, q2, q3, hne1, hne2] at ih' ⊢
    rw [ih']
    rw [plpgsqlScan_cons_cons]
    simp_all

theorem plpgsqlScan_nil : plpgsqlScan [] = [] := rfl

theorem plpgsqlScan_single (c : Char) (h : c ≠ ':') : plpgsqlScan [c] = [c] := by
  simp [plpgsqlScan, h]

theorem plpgsqlScan_colon_single : plpgsqlScan [':'] = ['\\', ':'] := by decide

theorem plpgsqlScan_cc (rest : List Char) :
    plpgsqlScan (':' :: ':' :: rest) = ':' :: ':' :: plpgsqlScan rest := by
  rw [plpgsqlScan_cons_cons]; simp

theorem plpgsqlScan_ceq (rest : List Char) :
    plpgsqlScan (':' :: '=' :: rest) = ':' :: '=' :: plpgsqlScan rest := by
  rw [plpgsqlScan_cons_cons]; simp

theorem plpgsqlScan_lone (d : Char) (rest : List Char) (h1 : d ≠ ':') (h2 : d ≠ '=') :
    plpgsqlScan (':' :: d :: rest) = '\\' :: ':' :: plpgsqlScan (d :: rest) := by
  rw [plpgsqlScan_cons_cons]; simp [h1, h2]

theorem plpgsqlScan_protEnd : plpgsqlScan ['\\', ':'] = ['\\', ':'] := by decide

theorem plpgsqlScan_bcc (rest2 : List Char) :
    plpgsqlScan ('\\' :: ':' :: ':' :: rest2) = '\\' :: ':' :: ':' :: plpgsqlScan rest2 := by
  rw [plpgsqlScan_cons_cons]; simp

theorem plpgsqlScan_bceq (rest2 : List Char) :
    plpgsqlScan ('\\' :: ':' :: '=' :: rest2) = '\\' :: ':' :: '=' :: plpgsqlScan rest2 := by
  rw [plpgsqlScan_cons_cons]; simp

theorem plpgsqlScan_prot (e : Char) (rest2 : List Char) (h1 : e ≠ ':') (h2 : e ≠ '=') :
    plpgsqlScan ('\\' :: ':' :: e :: rest2) = '\\' :: ':' :: plpgsqlScan (e :: rest2) := by
  rw [plpgsqlScan_cons_cons]; simp [h1, h2]

theorem plpgsqlScan_bslash (d : Char) (rest : List Char) (h : d ≠ ':') :
    plpgsqlScan ('\\' :: d :: rest) = '\\' :: plpgsqlScan (d :: rest) := by
  rw [plpgsqlScan_cons_cons]; simp [h]

theorem plpgsqlScan_other (c d : Char) (rest : List Char) (h1 : c ≠ ':') (h2 : c ≠ '\\') :
    plpgsqlScan (c :: d :: rest) = c :: plpgsqlScan (d :: rest) := by
  rw [plpgsqlScan_cons_cons]; simp [h1, h2]

/-- The scan keeps the head character, except that it may put a fresh
backslash in front. -/
theorem plpgsqlScan_head (s : List Char) :
    (plpgsqlScan s).head? = s.head? ∨ (plpgsqlScan s).head? = some '\\' := by
  induction s using plpgsqlScan.induct with
  | case1 => left; rfl
  | case2 => right; rw [plpgsqlScan_colon_single]; rfl
  | case3 c hne => left; rw [plpgsqlScan_single c hne]
  | case4 rest ih => left; rw [plpgsqlScan_cc]; rfl
  | case5 rest hne ih => left; rw [plpgsqlScan_ceq]; rfl
  | case6 d rest hne1 hne2 ih => right; rw [plpgsqlScan_lone d rest hne1 hne2]; rfl
  | case7 => left; rw [plpgsqlScan_protEnd]
  | case8 rest2 hne ih => left; rw [plpgsqlScan_bcc]; rfl
  | case9 rest2 hne1 hne2 ih => left; rw [plpgsqlScan_bceq]; rfl
  | case10 e rest2 hne1 hne2 hne3 ih => left; rw [plpgsqlScan_prot e rest2 hne1 hne2]; rfl
  | case11 d rest hne1 hne2 ih => left; rw [plpgsqlScan_bslash d rest hne1]; rfl
  | case12 c d rest hne1 hne2 ih => left; rw [plpgsqlScan_other c d rest hne1 hne2]; rfl

/-- The one-pass scan is idempotent. -/
theorem plpgsqlScan_idem (s : List Char) :
    plpgsqlScan (plpgsqlScan s) = plpgsqlScan s := by
  induction s using plpgsqlScan.induct with
  | case1 => rfl
  | case2 => decide
  | case3 c hne => rw [plpgsqlScan_single c hne, plpgsqlScan_single c hne]
  | case4 rest ih => rw [plpgsqlScan_cc, plpgsqlScan_cc, ih]
  | case5 rest hne ih => rw [plpgsqlScan_ceq, plpgsqlScan_ceq, ih]
  | case6 d rest hne1 hne2 ih =>
    rw [plpgsqlScan_lone d rest hne1 hne2]
    cases hX : plpgsqlScan (d :: rest) with
    | nil => rw [plpgsqlScan_protEnd]
    | cons y ys =>
      have hy : y = d ∨ y = '\\' := by
        rcases plpgsqlScan_head (d :: rest) with h | h <;> rw [hX] at h <;> simp at h
        · exact Or.inl h
        · exact Or.inr h
      have hy1 : y ≠ ':' := by
        rcases hy with rfl | rfl
        · exact hne1
        · decide
      have hy2 : y ≠ '=' := by
        rcases hy with rfl | rfl
        · exact hne2
        · decide
      rw [plpgsqlScan_prot y ys hy1 hy2]
      rw [← hX, ih]
  | case7 => decide
  | case8 rest2 hne ih => rw [plpgsqlScan_bcc, plpgsqlScan_bcc, ih]
  | case9 rest2 hne1 hne2 ih => rw [plpgsqlScan_bceq, plpgsqlScan_bceq, ih]
  | case10 e rest2 hne1 hne2 hne3 ih =>
    rw [plpgsqlScan_prot e rest2 hne1 hne2]
    cases hX : plpgsqlScan (e :: rest2) with
    | nil => rw [plpgsqlScan_protEnd]
    | cons y ys =>
      have hy : y = e ∨ y = '\\' := by
        rcases plpgsqlScan_head (e :: rest2) with h | h <;> rw [hX] at h <;> simp at h
        · exact Or.inl h
        · exact Or.inr h
      have hy1 : y ≠ ':' := by
        rcases hy with rfl | rfl
        · exact hne1
        · decide
      have hy2 : y ≠ '=' := by
        rcases hy with rfl | rfl
        · exact hne2
        · decide
      rw [plpgsqlScan_prot y ys hy1 hy2]
      rw [← hX, ih]
  | case11 d rest hne1 hne2 ih =>
    rw [plpgsqlScan_bslash d rest hne1]
    cases hX : plpgsqlScan (d :: rest) with
    | nil => rw [plpgsqlScan_single '\\' (by decide)]
    | cons y ys =>
      have hy : y = d ∨ y = '\\' := by
        rcases plpgsqlScan_head (d :: rest) with h | h <;> rw [hX] at h <;> simp at h
        · exact Or.inl h
        · exact Or.inr h
      have hy1 : y ≠ ':' := by
        rcases hy with rfl | rfl
        · exact hne1
        · decide
      rw [plpgsqlScan_bslash y ys hy1]
      rw [← hX, ih]
  | case12 c d rest hne1 hne2 ih =>
    rw [plpgsqlScan_other c d rest hne1 hne2]
    cases hX : plpgsqlScan (d :: rest) with
    | nil => rw [plpgsqlScan_single c hne1]
    | cons y ys =>
      rw [plpgsqlScan_other c y ys hne1 hne2]
      rw [← hX, ih]

/-- C8: `escape_colon_for_sql("a::int")` returns `"a::int"` unchanged — it
contains no bare unescaped single colon outside the `::` cast — and
`escape_colon_for_plpgsql("x := 1; y::int; z:=2")` returns its input
unchanged, leaving every `:=` and `::` unescaped (there is no lone colon to
escape).  The sentinels are arbitrary fresh characters, modelling the
collision-free `uuid4()` draws of the source. -/
theorem escape_colon_cast_and_assign (u u1 u2 u3 : Char)
    (hm : u ∉ chars "a::int") (hc : u ≠ ':') (hb : u ≠ '\\')
    (g1c : u1 ≠ ':') (g1e : u1 ≠ '=') (g1b : u1 ≠ '\\')
    (g2c : u2 ≠ ':') (g2e : u2 ≠ '=') (g2b : u2 ≠ '\\')
    (g3c : u3 ≠ ':') (g3e : u3 ≠ '=') (g3b : u3 ≠ '\\')
    (g21 : u2 ≠ u1) (g31 : u3 ≠ u1) (g32 : u3 ≠ u2)
    (gm1 : u1 ∉ chars "x := 1; y::int; z:=2")
    (gm2 : u2 ∉ chars "x := 1; y::int; z:=2")
    (gm3 : u3 ∉ chars "x := 1; y::int; z:=2") :
    escape_colon_for_sql [u] (chars "a::int") = chars "a::int" ∧
      sqlColonsOk (escape_colon_for_sql [u] (chars "a::int")) = true ∧
      escape_colon_for_plpgsql [u1] [u2] [u3] (chars "x := 1; y::int; z:=2")
          = chars "x := 1; y::int; z:=2" ∧
      plpgsqlColonsOk (escape_colon_for_plpgsql [u1] [u2] [u3]
          (chars "x := 1; y::int; z:=2")) = true := by
  have e1 : escape_colon_for_sql [u] (chars "a::int") = sqlScan (chars "a::int") :=
    escape_colon_for_sql_eq_scan u hc hb _ hm
  have e2 : escape_colon_for_plpgsql [u1] [u2] [u3] (chars "x := 1; y::int; z:=2")
      = plpgsqlScan (chars "x := 1; y::int; z:=2") :=
    escape_colon_for_plpgsql_eq_scan u1 u2 u3 g1c g1e g1b g2c g2e g2b g3c g3e g3b
      g21 g31 g32 _ gm1 gm2 gm3
  refine ⟨?_, ?_, ?_, ?_⟩
  · rw [e1]; decide
  · rw [e1]; decide
  · rw [e2]; decide
  · rw [e2]; decide

/-- Witness for C8 with the concrete fresh sentinels `@`, `#`, `$`, `%`. -/
theorem escape_colon_cast_and_assign_witness :
    ('@' ∉ chars "a::int" ∧ '#' ∉ chars "x := 1; y::int; z:=2" ∧
        '$' ∉ chars "x := 1; y::int; z:=2" ∧ '%' ∉ chars "x := 1; y::int; z:=2") ∧
      (escape_colon_for_sql ['@'] (chars "a::int") = chars "a::int" ∧
        sqlColonsOk (escape_colon_for_sql ['@'] (chars "a::int")) = true ∧
        escape_colon_for_plpgsql ['#'] ['$'] ['%'] (chars "x := 1; y::int; z:=2")
            = chars "x := 1; y::int; z:=2" ∧
        plpgsqlColonsOk (escape_colon_for_plpgsql ['#'] ['$'] ['%']
            (chars "x := 1; y::int; z:=2")) = true) :=
  ⟨⟨by decide, by decide, by decide, by decide⟩,
    escape_colon_cast_and_assign '@' '#' '$' '%'
      (by decide) (by decide) (by decide) (by decide) (by decide) (by decide)
      (by decide) (by decide) (by decide) (by decide) (by decide) (by decide)
      (by decide) (by decide) (by decide) (by decide) (by decide) (by decide)⟩

/-- C10: `escape_colon_for_plpgsql` is idempotent.  Each call draws fresh
`uuid4()` sentinels, so the second application runs with its own sentinels
`v1 v2 v3`, fresh for the output of the first; already escaped `\:`
sequences (as well as `::` and `:=`) are protected and not re-escaped. -/
theorem escape_colon_for_plpgsql_idempotent (u1 u2 u3 v1 v2 v3 : Char) (s : List Char)
    (g1c : u1 ≠ ':') (g1e : u1 ≠ '=') (g1b : u1 ≠ '\\')
    (g2c : u2 ≠ ':') (g2e : u2 ≠ '=') (g2b : u2 ≠ '\\')
    (g3c : u3 ≠ ':') (g3e : u3 ≠ '=') (g3b : u3 ≠ '\\')
    (g21 : u2 ≠ u1) (g31 : u3 ≠ u1) (g32 : u3 ≠ u2)
    (gm1 : u1 ∉ s) (gm2 : u2 ∉ s) (gm3 : u3 ∉ s)
    (k1c : v1 ≠ ':') (k1e : v1 ≠ '=') (k1b : v1 ≠ '\\')
    (k2c : v2 ≠ ':') (k2e : v2 ≠ '=') (k2b : v2 ≠ '\\')
    (k3c : v3 ≠ ':') (k3e : v3 ≠ '=') (k3b : v3 ≠ '\\')
    (k21 : v2 ≠ v1) (k31 : v3 ≠ v1) (k32 : v3 ≠ v2)
    (km1 : v1 ∉ escape_colon_for_plpgsql [u1] [u2] [u3] s)
    (km2 : v2 ∉ escape_colon_for_plpgsql [u1] [u2] [u3] s)
    (km3 : v3 ∉ escape_colon_for_plpgsql [u1] [u2] [u3] s) :
    escape_colon_for_plpgsql [v1] [v2] [v3]
        (escape_colon_for_plpgsql [u1] [u2] [u3] s)
      = escape_colon_for_plpgsql [u1] [u2] [u3] s := by
  have e1 : escape_colon_for_plpgsql [u1] [u2] [u3] s = plpgsqlScan s :=
    escape_colon_for_plpgsql_eq_scan u1 u2 u3 g1c g1e g1b g2c g2e g2b g3c g3e g3b
      g21 g31 g32 s gm1 gm2 gm3
  rw [e1] at km1 km2 km3 ⊢
  rw [escape_colon_for_plpgsql_eq_scan v1 v2 v3 k1c k1e k1b k2c k2e k2b k3c k3e k3b
    k21 k31 k32 (plpgsqlScan s) km1 km2 km3]
  exact plpgsqlScan_idem s

/-- Witness for C10 at a concrete input with a cast, an assignment, an
already-escaped colon and a lone colon, with fresh sentinels for both runs. -/
theorem escape_colon_for_plpgsql_idempotent_witness :
    ('@' ∉ chars "x := a\\:b; c::d; e:f" ∧
        '%' ∉ escape_colon_for_plpgsql ['@'] ['#'] ['$'] (chars "x := a\\:b; c::d; e:f")) ∧
      escape_colon_for_plpgsql ['%'] ['^'] ['&']
          (escape_colon_for_plpgsql ['@'] ['#'] ['$'] (chars "x := a\\:b; c::d; e:f"))
        = escape_colon_for_plpgsql ['@'] ['#'] ['$'] (chars "x := a\\:b; c::d; e:f") :=
  ⟨⟨by decide, by decide⟩,
    escape_colon_for_plpgsql_idempotent '@' '#' '$' '%' '^' '&'
      (chars "x := a\\:b; c::d; e:f")
      (by decide) (by decide) (by decide) (by decide) (by decide) (by decide)
      (by decide) (by decide) (by decide) (by decide) (by decide) (by decide)
      (by decide) (by decide) (by decide)
      (by decide) (by decide) (by decide) (by decide) (by decide) (by decide)
      (by decide) (by decide) (by decide) (by decide) (by decide) (by decide)
      (by decide) (by decide) (by decide)⟩

theorem splitGo_length_countOccAux (sep : List Char) :
    ∀ (s : List Char) (k : Nat) (acc : List Char),
      (splitGo sep k acc s).length = countOccAux sep k s + 1 := by
  intro s
  induction s with
  | nil => intro k acc; cases k <;> rfl
  | cons c rest ih =>
    intro k acc
    cases k with
    | succ k =>
      show (splitGo sep k acc rest).length = countOccAux sep k rest + 1
      exact ih k acc
    | zero =>
      show (splitGo sep 0 acc (c :: rest)).length = countOccAux sep 0 (c :: rest) + 1
      rw [splitGo, countOccAux]
      by_cases hp : (!sep.isEmpty && sep.isPrefixOf (c :: rest)) = true
      · rw [if_pos hp, if_pos hp]
        simp only [List.length_cons]
        rw [ih]
      · rw [if_neg hp, if_neg hp]
        exact ih 0 (c :: acc)

theorem splitOnL_length_countOcc (sep s : List Char) :
    (splitOnL sep s).length = countOcc sep s + 1 :=
  splitGo_length_countOccAux sep s 0 []

theorem splitGo_eq_single (sep : List Char) :
    ∀ (s acc : List Char), occursB sep s = false →
      splitGo sep 0 acc s = [acc.reverse ++ s] := by
  intro s
  induction s with
  | nil => intro acc _; simp [splitGo]
  | cons c rest ih =>
    intro acc hocc
    rw [occursB, Bool.or_eq_false_iff] at hocc
    rw [splitGo, if_neg (by simp [hocc.1])]
    rw [ih (c :: acc) hocc.2]
    simp

theorem splitGo_skip (sep : List Char) :
    ∀ (l m acc : List Char), splitGo sep l.length acc (l ++ m) = splitGo sep 0 acc m := by
  intro l
  induction l with
  | nil => intro m acc; rfl
  | cons x xs ih =>
    intro m acc
    show splitGo sep (xs.length + 1) acc (x :: (xs ++ m)) = splitGo sep 0 acc m
    rw [splitGo]
    exact ih m acc

theorem splitGo_splice (sep : List Char) (hne : sep ≠ []) :
    ∀ (pre acc post : List Char),
      (∀ i < pre.length, sep.isPrefixOf ((pre ++ sep ++ post).drop i) = false) →
      occursB sep post = false →
      splitGo sep 0 acc (pre ++ sep ++ post) = [acc.reverse ++ pre, post] := by
  intro pre
  induction pre with
  | nil =>
    intro acc post _ hpost
    obtain ⟨c, sep', hsep⟩ : ∃ c sep', sep = c :: sep' := by
      cases sep with
      | nil => exact absurd rfl hne
      | cons c sep' => exact ⟨c, sep', rfl⟩
    subst hsep
    show splitGo (c :: sep') 0 acc (c :: (sep' ++ post)) = [acc.reverse ++ [], post]
    have hp : (!(c :: sep').isEmpty && (c :: sep').isPrefixOf (c :: (sep' ++ post))) = true := by
      simp only [List.isEmpty, Bool.not_false, Bool.true_and]
      exact List.isPrefixOf_iff_prefix.mpr
        (by simp [List.prefix_append])
    rw [splitGo, if_pos hp]
    have hlen : (c :: sep').length - 1 = sep'.length := by simp
    rw [hlen, splitGo_skip (c :: sep') sep' post []]
    rw [splitGo_eq_single (c :: sep') post [] hpost]
    simp
  | cons p pre' ih =>
    intro acc post hpre hpost
    have h0 : sep.isPrefixOf (p :: (pre' ++ (sep ++ post))) = false := by
      have := hpre 0 (by simp)
      simpa using this
    show splitGo sep 0 acc (p :: (pre' ++ sep ++ post)) = [acc.reverse ++ p :: pre', post]
    have hnp : ¬ sep <+: p :: (pre' ++ (sep ++ post)) := by
      intro hp2
      have hb : sep.isPrefixOf (p :: (pre' ++ (sep ++ post))) = true :=
        List.isPrefixOf_iff_prefix.mpr hp2
      rw [h0] at hb
      exact Bool.false_ne_true hb
    rw [splitGo, if_neg (by simp [hnp])]
    have hpre' : ∀ i < pre'.length, sep.isPrefixOf ((pre' ++ sep ++ post).drop i) = false := by
      intro i hi
      have := hpre (i + 1) (by simpa using Nat.succ_lt_succ hi)
      simpa using this
    rw [ih (p :: acc) post hpre' hpost]
    simp

theorem splitOnL_splice (sep pre post : List Char) (hne : sep ≠ [])
    (hpre : ∀ i < pre.length, sep.isPrefixOf ((pre ++ sep ++ post).drop i) = false)
    (hpost : occursB sep post = false) :
    splitOnL sep (pre ++ sep ++ post) = [pre, post] := by
  have := splitGo_splice sep hne pre [] post hpre hpost
  simpa [splitOnL] using this

/-- C1: `getFuncBodySplit` splits the serialized spliced statement on the
literal `"RETURNS void"`; it fails (with a `ValueError`) whenever the
number of occurrences of the sentinel is not exactly one, fails when the
prefix before the unique sentinel — stripped and lowercased — is not the
dummy header `"create function foo.bar()"`, and otherwise returns the text
after the sentinel verbatim. -/
theorem get_func_body_split_spec :
    (∀ s : List Char, countOcc (chars "RETURNS void") s ≠ 1 →
        ∃ m, getFuncBodySplit s = .error (.valueError m)) ∧
      (∀ pre post : List Char,
        (∀ i < pre.length,
          (chars "RETURNS void").isPrefixOf
            ((pre ++ chars "RETURNS void" ++ post).drop i) = false) →
        occursB (chars "RETURNS void") post = false →
        (pyLower (pyStrip pre) = chars "create function foo.bar()" →
          getFuncBodySplit (pre ++ chars "RETURNS void" ++ post) = .ok post) ∧
        (pyLower (pyStrip pre) ≠ chars "create function foo.bar()" →
          ∃ m, getFuncBodySplit (pre ++ chars "RETURNS void" ++ post)
            = .error (.valueError m))) := by
  constructor
  · intro s hcount
    unfold getFuncBodySplit
    rcases hp : splitOnL (chars "RETURNS void") s with _ | ⟨a, _ | ⟨b, _ | ⟨c, t⟩⟩⟩
    · exact ⟨_, rfl⟩
    · exact ⟨_, rfl⟩
    · exfalso
      have := splitOnL_length_countOcc (chars "RETURNS void") s
      rw [hp] at this
      simp at this
      exact hcount (by omega)
    · exact ⟨_, rfl⟩
  · intro pre post hpre hpost
    have hsplit : splitOnL (chars "RETURNS void") (pre ++ chars "RETURNS void" ++ post)
        = [pre, post] :=
      splitOnL_splice (chars "RETURNS void") pre post (by decide) hpre hpost
    constructor
    · intro hhead
      unfold getFuncBodySplit
      rw [hsplit]
      simp [hhead]
    · intro hhead
      unfold getFuncBodySplit
      rw [hsplit]
      simp only [if_neg hhead]
      exact ⟨_, rfl⟩

/-- Witness for C1: a sentinel-free input fails, and a well-formed spliced
statement returns the verbatim tail. -/
theorem get_func_body_split_spec_witness :
    (countOcc (chars "RETURNS void") (chars "no sentinel here") ≠ 1 ∧
        ∃ m, getFuncBodySplit (chars "no sentinel here") = .error (.valueError m)) ∧
      getFuncBodySplit (chars "CREATE FUNCTION foo.bar() " ++ chars "RETURNS void" ++
          chars " AS $$ select 1 $$ LANGUAGE sql")
        = .ok (chars " AS $$ select 1 $$ LANGUAGE sql") :=
  ⟨⟨by decide, get_func_body_split_spec.1 (chars "no sentinel here") (by decide)⟩,
    (get_func_body_split_spec.2 (chars "CREATE FUNCTION foo.bar() ")
        (chars " AS $$ select 1 $$ LANGUAGE sql") (by decide) (by decide)).1 (by decide)⟩

/-- C5: the end-to-end scenario
`"CREATE MATERIALIZED VIEW public.mv AS SELECT 1 AS x;"` parses to
schema `public`, signature `mv`, definition `SELECT 1 AS x` and
`with_data = true`. -/
theorem from_sql_scenario_public_mv :
    PGMaterializedView.from_sql false
        (chars "CREATE MATERIALIZED VIEW public.mv AS SELECT 1 AS x;")
      = Except.ok
          { schema := chars "public", signature := chars "mv",
            definition := chars "SELECT 1 AS x", with_data := true,
            include_schema_prefix := false } := by decide

/-- C4: the templates are tried in source order, in which the explicit
with-data and no-data variants precede the bare no-clause variant.  On
`"create materialized view s.v as select 1 with no data"` the with-data
template fails, the no-data template matches and binds `no_data`, and the
parsed view has `with_data = false` — the explicit `WITH NO DATA` is never
swallowed by the with-data or bare template. -/
theorem from_sql_template_precedence_no_data :
    tmatch viewTemplate1
        (chars "create materialized view s.v as select 1 with no data") = none ∧
      (lookupBinding
          ((tmatch viewTemplate2
            (chars "create materialized view s.v as select 1 with no data")).getD [])
          (chars "no_data")).isSome = true ∧
      ∃ v, PGMaterializedView.from_sql false
            (chars "create materialized view s.v as select 1 with no data")
          = Except.ok v ∧ v.with_data = false :=
  ⟨by decide, by decide,
    ⟨{ schema := chars "s", signature := chars "v", definition := chars "s",
       with_data := false, include_schema_prefix := true },
      by decide, rfl⟩⟩

/-- The empty pattern occurs in every string. -/
theorem occursB_nil (s : List Char) : occursB [] s = true := by
  induction s with
  | nil => rfl
  | cons c rest ih => simp [occursB, ih]

/-- A pattern occurs in any string that splices it between two others. -/
theorem occursB_middle (pat pre post : List Char) :
    occursB pat (pre ++ pat ++ post) = true := by
  induction pre with
  | nil =>
    cases pat with
    | nil => simpa using occursB_nil post
    | cons c cs => simp [occursB, List.prefix_append, List.isPrefixOf_iff_prefix]
  | cons c pre ih =>
    simp only [List.cons_append, occursB, Bool.or_eq_true]
    exact Or.inr ih

/-- C9: for EVERY input on which no view template matches, `from_sql` fails
with a `SQLParseFailure` whose message carries the offending
(semicolon-stripped) text, returns no partial result, and — the model being
a function of the input alone — every attempt's result is that same single
error. -/
theorem from_sql_failure_carries_text (nis : Bool) (sql : List Char)
    (h : tryTemplates viewTemplates (strip_terminating_semicolon sql) = none) :
    ∃ m, PGMaterializedView.from_sql nis sql = Except.error (.sqlParseFailure m) ∧
        occursB (strip_terminating_semicolon sql) m = true ∧
        (¬ ∃ v, PGMaterializedView.from_sql nis sql = Except.ok v) ∧
        ∀ r, PGMaterializedView.from_sql nis sql = r →
          r = Except.error (.sqlParseFailure m) := by
  have he : PGMaterializedView.from_sql nis sql
      = Except.error (.sqlParseFailure
          (chars "Failed to parse SQL into PGView \"\"\""
            ++ strip_terminating_semicolon sql ++ chars "\"\"\"")) := by
    simp only [PGMaterializedView.from_sql, h]
  refine ⟨_, he, occursB_middle _ _ _, ?_, ?_⟩
  · rintro ⟨v, hv⟩
    rw [he] at hv
    exact Except.noConfusion hv
  · intro r hr
    rw [← hr, he]

/-- Witness for C9: the claim's malformed input
`"CREATE VIEW WITHOUT AS CLAUSE"` matches no template, and the theorem
applies to it. -/
theorem from_sql_failure_carries_text_witness :
    tryTemplates viewTemplates
        (strip_terminating_semicolon (chars "CREATE VIEW WITHOUT AS CLAUSE"))
      = none ∧
    ∃ m, PGMaterializedView.from_sql false (chars "CREATE VIEW WITHOUT AS CLAUSE")
          = Except.error (.sqlParseFailure m) ∧
        occursB (strip_terminating_semicolon (chars "CREATE VIEW WITHOUT AS CLAUSE")) m
          = true ∧
        (¬ ∃ v, PGMaterializedView.from_sql false (chars "CREATE VIEW WITHOUT AS CLAUSE")
            = Except.ok v) ∧
        ∀ r, PGMaterializedView.from_sql false (chars "CREATE VIEW WITHOUT AS CLAUSE") = r →
          r = Except.error (.sqlParseFailure m) :=
  ⟨by decide,
    from_sql_failure_carries_text false (chars "CREATE VIEW WITHOUT AS CLAUSE") (by decide)⟩

/-- C2 counterexample: on a two-statement parse tree, `split_function` does
fail — but with the structural `ValueError`, which the
`except pg_query.PgQueryExc` clause does not convert, NOT with a
`SQLParseFailure` as the claim states. -/
theorem split_function_two_stmts_counterexample :
    split_function_model (Except.ok twoStmtTree) Except.ok
        = Except.error (.valueError (chars "Expected 1 statement")) ∧
      ¬ ∃ m, split_function_model (Except.ok twoStmtTree) Except.ok
          = Except.error (.sqlParseFailure m) := by
  refine ⟨rfl, ?_⟩
  rintro ⟨m, hm⟩
  have h0 : split_function_model (Except.ok twoStmtTree) Except.ok
      = Except.error (.valueError (chars "Expected 1 statement")) := rfl
  rw [h0] at hm
  exact PyError.noConfusion (Except.error.inj hm)

/-- C2 (amended): for every parse tree that does not consist of exactly one
top-level create-function/procedure statement, `split_function` fails
rather than succeeding or guessing — but it fails with the structural
`ValueError`, which its `except pg_query.PgQueryExc` handler does not
convert; only errors raised by the grammar codec itself are converted to
`SQLParseFailure`. -/
theorem split_function_structural_failure {a : Type}
    (rest : CreateFunctionStmt → Except PyError a) :
    (∀ pt : ParseResult, pt.stmts.length ≠ 1 →
        split_function_model (Except.ok pt) rest
          = Except.error (.valueError (chars "Expected 1 statement"))) ∧
      (∀ stmt : RawStmt, (∀ f, stmt.stmt ≠ .create_function_stmt f) →
        (∀ f, stmt.stmt ≠ .create_procedure_stmt f) →
        split_function_model (Except.ok { stmts := [stmt] }) rest
          = Except.error (.valueError
              (chars "Expected create_function_stmt or create_procedure_stmt"))) ∧
      (∀ m : List Char, split_function_model (Except.error (.pgQueryExc m)) rest
          = Except.error (.sqlParseFailure m)) := by
  refine ⟨?_, ?_, ?_⟩
  · intro pt hlen
    have hg : get_create_function_stmt pt
        = Except.error (.valueError (chars "Expected 1 statement")) := by
      unfold get_create_function_stmt
      rcases hp : pt.stmts with _ | ⟨x, _ | ⟨y, t⟩⟩
      · rfl
      · exact absurd (by rw [hp]; rfl) hlen
      · rfl
    simp [split_function_model, Except.bind, hg, catchPgQueryExc]
  · intro stmt hf hp
    obtain ⟨node⟩ := stmt
    have hg : get_create_function_stmt { stmts := [⟨node⟩] }
        = Except.error (.valueError
            (chars "Expected create_function_stmt or create_procedure_stmt")) := by
      unfold get_create_function_stmt
      rcases node with f | f | _ | _
      · exact absurd rfl (hf f)
      · exact absurd rfl (hp f)
      · rfl
      · rfl
    simp [split_function_model, Except.bind, hg, catchPgQueryExc]
  · intro m
    rfl

/-- Witness for the amended C2 theorem: a two-statement tree, a lone SELECT
statement, and a codec error. -/
theorem split_function_structural_failure_witness :
    (twoStmtTree.stmts.length ≠ 1 ∧
        split_function_model (Except.ok twoStmtTree) Except.ok
          = Except.error (.valueError (chars "Expected 1 statement"))) ∧
      split_function_model (Except.ok { stmts := [{ stmt := .other }] }) Except.ok
          = Except.error (.valueError
              (chars "Expected create_function_stmt or create_procedure_stmt")) ∧
      split_function_model (Except.error (.pgQueryExc (chars "syntax error")))
          Except.ok
        = Except.error (.sqlParseFailure (chars "syntax error")) :=
  ⟨⟨by decide,
      (split_function_structural_failure Except.ok).1 twoStmtTree (by decide)⟩,
    (split_function_structural_failure Except.ok).2.1 { stmt := .other }
      (fun f h => StmtNode.noConfusion h) (fun f h => StmtNode.noConfusion h),
    (split_function_structural_failure Except.ok).2.2 (chars "syntax error")⟩
